import Mathlib

/-!
Verification of the weekly RSI LEAPS scanner (leaps_scanner.py).

The Python source is shallowly embedded: prices and RSI values are exact
rationals, the pandas NaN that arises from missing data or 0/0 is modelled
by Option.none, datetimes are day numbers in the proleptic Gregorian
calendar (for the options-expiry logic) or second counts (for the alert
ledger), and the alert-history JSON dict is a function from ticker symbol
to an optional alert record.
-/

namespace LeapsScanner

/-! Configuration constants from the CONFIG section of the source. -/

def RSI_THRESHOLD : ℚ := 30

def MIN_DTE : Nat := 360

def OTM_PERCENT : ℚ := 10

/-! The Python built-in round: round to the nearest integer, ties to the
even integer. -/

def pyRound (q : ℚ) : ℤ :=
  if q - (⌊q⌋ : ℚ) < 1/2 then ⌊q⌋
  else if 1/2 < q - (⌊q⌋ : ℚ) then ⌊q⌋ + 1
  else if ⌊q⌋ % 2 = 0 then ⌊q⌋ else ⌊q⌋ + 1

/-! Strike-grid snapping, lines 158 to 161 of get_options_suggestion:
round to a multiple of 5 above 50, to a multiple of 2.5 above 10, and
leave the value unchanged otherwise. -/

def snapQ (x : ℚ) : ℚ :=
  if 50 < x then (pyRound (x / 5) : ℚ) * 5
  else if 10 < x then (pyRound (x / (5/2)) : ℚ) * (5/2)
  else x

/-- Line 156 and the snapping branch: the suggested strike for a current
price, round(price * (1 + OTM_PERCENT / 100)) then grid-snapped. -/
def strikeOf (current_price : ℚ) : ℚ :=
  snapQ ((pyRound (current_price * (1 + OTM_PERCENT / 100)) : ℚ))

/-! Calendar arithmetic. A date is a count of days with day 0 equal to
March 1 of year 0 in the proleptic Gregorian calendar; the conversions are
the standard era-based civil-calendar algorithms, which is what the Python
datetime plus timedelta arithmetic of the source computes. -/

def daysFromCivil (y m d : Nat) : Nat :=
  let y2 := y - (if m ≤ 2 then 1 else 0)
  let era := y2 / 400
  let yoe := y2 % 400
  let mp := if 2 < m then m - 3 else m + 9
  let doy := (153 * mp + 2) / 5 + d - 1
  let doe := yoe * 365 + yoe / 4 - yoe / 100 + doy
  era * 146097 + doe

def civilFromDays (z : Nat) : Nat × Nat × Nat :=
  let era := z / 146097
  let doe := z % 146097
  let yoe := (doe - doe / 1460 + doe / 36524 - doe / 146096) / 365
  let y := yoe + era * 400
  let doy := doe - (365 * yoe + yoe / 4 - yoe / 100)
  let mp := (5 * doy + 2) / 153
  let d := doy - (153 * mp + 2) / 5 + 1
  let m := if mp < 10 then mp + 3 else mp - 9
  (y + (if m ≤ 2 then 1 else 0), m, d)

def pad2 (n : Nat) : String :=
  if n < 10 then "0" ++ toString n else toString n

def isoDate (y m d : Nat) : String :=
  toString y ++ "-" ++ pad2 m ++ "-" ++ pad2 d

/-! The trade-suggestion record returned by get_options_suggestion.
The exit_half_at and exit_rest_at strings are constants in the source. -/

structure Suggestion where
  strike : ℚ
  minExpiry : String
  expirySuggestion : String
  exitHalfAt : String
  exitRestAt : String
  chainUrl : String
deriving DecidableEq

/-- get_options_suggestion, lines 152 to 179. The source has no
reference-date parameter: it calls datetime.now() internally, and that
clock reading is the explicit argument now here (a day number). The
month branch on lines 165 to 168 is kept exactly as written: both of its
arms produce the same January label. -/
def getOptionsSuggestion (ticker : String) (current_price : ℚ) (now : Nat) : Suggestion :=
  let target := now + MIN_DTE
  let c := civilFromDays target
  let expiryStr :=
    if c.2.1 ≤ 6 then "January " ++ toString (c.1 + 1)
    else "January " ++ toString (c.1 + 1)
  { strike := strikeOf current_price
    minExpiry := isoDate c.1 c.2.1 c.2.2
    expirySuggestion := expiryStr
    exitHalfAt := "100% gain (2x entry price)"
    exitRestAt := "60 DTE remaining"
    chainUrl := "https://finance.yahoo.com/quote/" ++ ticker ++ "/options/" }

/-! The signal classification used by run_scanner on lines 358, 371 and
373, and again for the summary partitions on lines 385 and 386. -/

inductive SignalState where
  | OVERSOLD
  | APPROACHING
  | NORMAL
deriving DecidableEq

def classifyRsi (rsi : ℚ) : SignalState :=
  if rsi < RSI_THRESHOLD then SignalState.OVERSOLD
  else if rsi < 35 then SignalState.APPROACHING
  else SignalState.NORMAL

/-! The alert-deduplication ledger. A history entry stores the alert
timestamp in seconds (the source stores an ISO-8601 string and parses it
back), the RSI and the price at alert time. The weekly_rsi field of the
per-ticker scan data is an Option: none models a NaN RSI, on which every
Python comparison is False. -/

structure AlertRecord where
  date : ℤ
  rsi : Option ℚ
  price : ℚ
deriving DecidableEq

structure StockData where
  price : ℚ
  weekly_rsi : Option ℚ
deriving DecidableEq

def History : Type := String → Option AlertRecord

def setRec (h : History) (t : String) (r : Option AlertRecord) : History :=
  fun u => if u = t then r else h u

def rsiBelow (r : Option ℚ) (c : ℚ) : Bool :=
  match r with
  | none => false
  | some v => decide (v < c)

def rsiAbove (r : Option ℚ) (c : ℚ) : Bool :=
  match r with
  | none => false
  | some v => decide (c < v)

/-- should_alert, lines 196 to 211: true when no record exists for the
ticker, false when the record is dated fewer than 7 full days before now
(the Python timedelta days field is the floor of the difference in days),
true otherwise. -/
def should_alert (ticker : String) (history : History) (now : ℤ) : Bool :=
  match history ticker with
  | none => true
  | some r => if (now - r.date).fdiv 86400 < 7 then false else true

/-- Lines 358 to 370 of run_scanner: when the weekly RSI is below the
oversold threshold and should_alert approves, the history entry for the
ticker is upserted with the current date, RSI and price. -/
def recordIfOversold (now : ℤ) (h : History) (ticker : String) (d : StockData) : History :=
  if rsiBelow d.weekly_rsi RSI_THRESHOLD && should_alert ticker h now then
    setRec h ticker (some { date := now, rsi := d.weekly_rsi, price := d.price })
  else h

/-- Lines 376 to 378 of run_scanner: when the weekly RSI recovered above
40 and a record exists, the record is deleted. -/
def clearRecovered (h : History) (ticker : String) (d : StockData) : History :=
  if rsiAbove d.weekly_rsi 40 && (h ticker).isSome then
    setRec h ticker none
  else h

/-- One loop iteration of run_scanner restricted to its effect on the
alert history: a ticker whose data retrieval returned None is skipped
before any history access. -/
def scanStep (now : ℤ) (h : History) (ticker : String) (data : Option StockData) : History :=
  match data with
  | none => h
  | some d => clearRecovered (recordIfOversold now h ticker d) ticker d

/-- The full scan loop of run_scanner, lines 348 to 381, restricted to
its effect on the alert history: fold the per-ticker step over the
watchlist. -/
def run_scanner_history (watchlist : List String) (data : String → Option StockData)
    (now : ℤ) (h0 : History) : History :=
  watchlist.foldl (fun h t => scanStep now h t (data t)) h0

/-! The RSI engine of calculate_weekly_rsi, lines 114 to 128. The close
series is a list of rationals. The diff of the closes has a missing first
entry; the where-filters of the source turn that missing entry into a 0.0
gain and a 0.0 loss sample, so the gain and loss series below start with
an explicit 0. -/

def gains : List ℚ → List ℚ
  | [] => []
  | c :: rest => 0 :: List.zipWith (fun b a => max (b - a) 0) rest (c :: rest)

def losses : List ℚ → List ℚ
  | [] => []
  | c :: rest => 0 :: List.zipWith (fun b a => max (a - b) 0) rest (c :: rest)

/-- The pandas exponentially weighted mean with the default adjust=True:
walking the list left to right, the running numerator is w * num + x and
the running denominator is w * den + 1 (w = 1 - alpha), and each emitted
value is their quotient, so entry t is the weighted average of the first
t + 1 samples with weights w ^ age, normalized. -/
def ewmAux (w : ℚ) : ℚ → ℚ → List ℚ → List ℚ
  | _, _, [] => []
  | n, d, x :: xs => ((w * n + x) / (w * d + 1)) :: ewmAux w (w * n + x) (w * d + 1) xs

/-- The min_periods masking of pandas ewm: with min_periods = p, the first
p - 1 entries of the output are NaN (none) and the rest are defined. -/
def maskCount : Nat → List ℚ → List (Option ℚ)
  | 0, xs => xs.map some
  | _ + 1, [] => []
  | k + 1, _ :: xs => none :: maskCount k xs

/-- Lines 121 and 122: ewm(alpha, min_periods).mean() on a series with no
missing entries. -/
def ewmMean (alpha : ℚ) (minp : Nat) (xs : List ℚ) : List (Option ℚ) :=
  maskCount (minp - 1) (ewmAux (1 - alpha) 0 0 xs)

/-- Lines 124 and 125 applied entrywise, with the IEEE semantics of the
pandas element operations folded into one function: a NaN average (none)
propagates to a NaN RSI; avg_loss = 0 with avg_gain positive gives
rs = +infinity and 100 - 100 / (1 + rs) = 100; avg_gain = avg_loss = 0
gives rs = 0 / 0 = NaN, hence a NaN RSI; otherwise the arithmetic is
exact. -/
def rsiFromAvgs (g l : Option ℚ) : Option ℚ :=
  match g, l with
  | some g, some l =>
    if l = 0 then (if g = 0 then none else some 100)
    else some (100 - 100 / (1 + g / l))
  | _, _ => none

/-- The RSI series of calculate_weekly_rsi on a close series: Wilder-style
smoothing implemented with the pandas adjusted ewm, then the RS and RSI
formulas entrywise. The output has one entry per close; none is NaN. -/
def calculate_weekly_rsi (closes : List ℚ) (period : Nat) : List (Option ℚ) :=
  List.zipWith rsiFromAvgs
    (ewmMean (1 / (period : ℚ)) period (gains closes))
    (ewmMean (1 / (period : ℚ)) period (losses closes))

/-! The reference Wilder RSI that the specification describes. These
definitions follow the words of the spec, not the source, and exist to be
compared with calculate_weekly_rsi. -/

/-- Modelled from the spec: the recursive Wilder update
avg[t] = avg[t-1] + alpha * (x[t] - avg[t-1]). -/
def wilderRec (alpha : ℚ) : ℚ → List ℚ → List ℚ
  | _, [] => []
  | avg, x :: xs => (avg + alpha * (x - avg)) :: wilderRec alpha (avg + alpha * (x - avg)) xs

/-- Modelled from the spec: Wilder smoothing of a sample series, seeded by
the simple average of the first period samples, undefined before the seed
is available. -/
def wilderAvg (period : Nat) (xs : List ℚ) : List (Option ℚ) :=
  if xs.length < period then List.replicate xs.length none
  else
    List.replicate (period - 1) none ++
      some ((xs.take period).sum / period) ::
        (wilderRec (1 / (period : ℚ)) ((xs.take period).sum / period) (xs.drop period)).map some

/-- Modelled from the spec: RS = avg_gain / avg_loss, treated as all gains
(RSI 100) when avg_loss = 0, and RSI = 100 - 100 / (1 + RS). -/
def rsiSpecFromAvgs (g l : Option ℚ) : Option ℚ :=
  match g, l with
  | some g, some l => if l = 0 then some 100 else some (100 - 100 / (1 + g / l))
  | _, _ => none

/-- Modelled from the spec: the reference Wilder RSI series over a close
series. The gain and loss samples are the period-over-period deltas split
by sign; entry 0 of the output corresponds to the close with no delta and
is undefined. -/
def wilderRsiSpec (closes : List ℚ) (period : Nat) : List (Option ℚ) :=
  match closes with
  | [] => []
  | c :: rest =>
    none :: List.zipWith rsiSpecFromAvgs
      (wilderAvg period ((List.zipWith (fun b a => b - a) rest (c :: rest)).map (fun d => max d 0)))
      (wilderAvg period ((List.zipWith (fun b a => b - a) rest (c :: rest)).map (fun d => max (-d) 0)))

/-- The normalized weighted-average closed form of the adjusted ewm entry
at index t: sum of w ^ i * x[t-i] over i from 0 to t, divided by the sum
of the weights w ^ i. -/
def ewmSpecAt (w : ℚ) (xs : List ℚ) (t : Nat) : ℚ :=
  (∑ i ∈ Finset.range (t + 1), w ^ i * xs.getD (t - i) 0) /
    (∑ i ∈ Finset.range (t + 1), w ^ i)

/-! Helper lemmas about the Python rounding function. -/

theorem pyRound_eq_floor_or (q : ℚ) :
    pyRound q = ⌊q⌋ ∨ (pyRound q = ⌊q⌋ + 1 ∧ (⌊q⌋ : ℚ) < q) := by
  unfold pyRound
  by_cases h1 : q - (⌊q⌋ : ℚ) < 1/2
  · rw [if_pos h1]
    exact Or.inl rfl
  · rw [if_neg h1]
    by_cases h2 : 1/2 < q - (⌊q⌋ : ℚ)
    · rw [if_pos h2]
      exact Or.inr ⟨rfl, by linarith⟩
    · rw [if_neg h2]
      have h3 : q - (⌊q⌋ : ℚ) = 1/2 := le_antisymm (not_lt.1 h2) (not_lt.1 h1)
      by_cases h4 : ⌊q⌋ % 2 = 0
      · rw [if_pos h4]
        exact Or.inl rfl
      · rw [if_neg h4]
        exact Or.inr ⟨rfl, by linarith⟩

theorem pyRound_intCast (k : ℤ) : pyRound ((k : ℚ)) = k := by
  norm_num [pyRound, Int.floor_intCast]

theorem le_pyRound {m : ℤ} {q : ℚ} (h : (m : ℚ) ≤ q) : m ≤ pyRound q := by
  have hf : m ≤ ⌊q⌋ := Int.le_floor.2 h
  rcases pyRound_eq_floor_or q with h1 | ⟨h1, _⟩ <;> rw [h1] <;> omega

theorem pyRound_le {m : ℤ} {q : ℚ} (h : q ≤ (m : ℚ)) : pyRound q ≤ m := by
  rcases pyRound_eq_floor_or q with h1 | ⟨h1, h2⟩
  · rw [h1]
    have := Int.floor_le_floor h
    rwa [Int.floor_intCast] at this
  · rw [h1]
    have hq : (⌊q⌋ : ℚ) < (m : ℚ) := lt_of_lt_of_le h2 h
    have : ⌊q⌋ < m := by exact_mod_cast hq
    omega

/-- C5: classifier thresholds are exact, with strict comparisons: RSI
exactly 30 is not OVERSOLD and RSI exactly 35 is not APPROACHING; RSI
29.99 is OVERSOLD, RSI in the interval from 30 inclusive to 35 exclusive
is APPROACHING, and RSI at least 35 is NORMAL. -/
theorem classifier_thresholds_exact :
    classifyRsi 30 ≠ SignalState.OVERSOLD ∧
    classifyRsi 35 ≠ SignalState.APPROACHING ∧
    classifyRsi (2999/100) = SignalState.OVERSOLD ∧
    (∀ x : ℚ, 30 ≤ x → x < 35 → classifyRsi x = SignalState.APPROACHING) ∧
    (∀ x : ℚ, 35 ≤ x → classifyRsi x = SignalState.NORMAL) := by
  refine ⟨?_, ?_, ?_, ?_, ?_⟩
  · norm_num [classifyRsi, RSI_THRESHOLD]
    decide
  · norm_num [classifyRsi, RSI_THRESHOLD]
    decide
  · norm_num [classifyRsi, RSI_THRESHOLD]
  · intro x h1 h2
    rw [classifyRsi, RSI_THRESHOLD, if_neg (not_lt.2 h1), if_pos h2]
  · intro x h1
    rw [classifyRsi, RSI_THRESHOLD, if_neg (not_lt.2 (by linarith)), if_neg (not_lt.2 h1)]

/-- Witness for C5 at concrete RSI readings 32 and 40. -/
theorem classifier_thresholds_exact_witness :
    classifyRsi 32 = SignalState.APPROACHING ∧ classifyRsi 40 = SignalState.NORMAL :=
  ⟨classifier_thresholds_exact.2.2.2.1 32 (by norm_num) (by norm_num),
   classifier_thresholds_exact.2.2.2.2 40 (by norm_num)⟩

/-- C6: the suggested strike equals round(price * 1.10) snapped to a
coarser grid: a multiple of 5 when the rounded value is above 50, a
multiple of 2.5 when it is between 10 and 50, unsnapped when it is at
most 10; and for price 60 the suggested strike is 65. -/
theorem strike_rounding_grid (p : ℚ) :
    (∀ t now, (getOptionsSuggestion t p now).strike = strikeOf p) ∧
    (50 < pyRound (p * (1 + OTM_PERCENT / 100)) →
      ∃ k : ℤ, strikeOf p = (k : ℚ) * 5) ∧
    (10 < pyRound (p * (1 + OTM_PERCENT / 100)) →
      pyRound (p * (1 + OTM_PERCENT / 100)) ≤ 50 →
      ∃ k : ℤ, strikeOf p = (k : ℚ) * (5/2)) ∧
    (pyRound (p * (1 + OTM_PERCENT / 100)) ≤ 10 →
      strikeOf p = (pyRound (p * (1 + OTM_PERCENT / 100)) : ℚ)) ∧
    strikeOf 60 = 65 := by
  refine ⟨fun t now => rfl, ?_, ?_, ?_, ?_⟩
  · intro h50
    have hc : (50 : ℚ) < (pyRound (p * (1 + OTM_PERCENT / 100)) : ℚ) := by exact_mod_cast h50
    exact ⟨pyRound ((pyRound (p * (1 + OTM_PERCENT / 100)) : ℚ) / 5),
      by rw [strikeOf, snapQ, if_pos hc]⟩
  · intro h10 h50
    have hc50 : ¬ (50 : ℚ) < (pyRound (p * (1 + OTM_PERCENT / 100)) : ℚ) :=
      not_lt.2 (by exact_mod_cast h50)
    have hc10 : (10 : ℚ) < (pyRound (p * (1 + OTM_PERCENT / 100)) : ℚ) := by exact_mod_cast h10
    exact ⟨pyRound ((pyRound (p * (1 + OTM_PERCENT / 100)) : ℚ) / (5/2)),
      by rw [strikeOf, snapQ, if_neg hc50, if_pos hc10]⟩
  · intro h10
    have h50 : pyRound (p * (1 + OTM_PERCENT / 100)) ≤ (50 : ℤ) := le_trans h10 (by norm_num)
    have hc50 : ¬ (50 : ℚ) < (pyRound (p * (1 + OTM_PERCENT / 100)) : ℚ) :=
      not_lt.2 (by exact_mod_cast h50)
    have hc10 : ¬ (10 : ℚ) < (pyRound (p * (1 + OTM_PERCENT / 100)) : ℚ) :=
      not_lt.2 (by exact_mod_cast h10)
    rw [strikeOf, snapQ, if_neg hc50, if_neg hc10]
  · norm_num [strikeOf, snapQ, pyRound, OTM_PERCENT]

/-- Witness for C6: each grid branch at a concrete price, prices 60, 20
and 5 giving strikes 65, 22.5 and 6. -/
theorem strike_rounding_grid_witness :
    (∃ k : ℤ, strikeOf 60 = (k : ℚ) * 5) ∧
    (∃ k : ℤ, strikeOf 20 = (k : ℚ) * (5/2)) ∧
    strikeOf 5 = (pyRound ((5 : ℚ) * (1 + OTM_PERCENT / 100)) : ℚ) :=
  ⟨(strike_rounding_grid 60).2.1 (by norm_num [pyRound, OTM_PERCENT]),
   (strike_rounding_grid 20).2.2.1 (by norm_num [pyRound, OTM_PERCENT])
     (by norm_num [pyRound, OTM_PERCENT]),
   (strike_rounding_grid 5).2.2.2.1 (by norm_num [pyRound, OTM_PERCENT])⟩

/-- C9: the strike grid-snapping function is idempotent on every rational
strike value, including values that the first snap moves across a grid
boundary. -/
theorem strike_snap_idempotent (x : ℚ) : snapQ (snapQ x) = snapQ x := by
  by_cases h50 : (50 : ℚ) < x
  · have hx : snapQ x = (pyRound (x/5) : ℚ) * 5 := by rw [snapQ, if_pos h50]
    have h10 : (10 : ℤ) ≤ pyRound (x/5) := by
      refine le_pyRound ?_
      rw [le_div_iff₀ (by norm_num : (0:ℚ) < 5)]
      push_cast
      linarith
    have h50y : (50 : ℚ) ≤ (pyRound (x/5) : ℚ) * 5 := by
      have h : ((10:ℤ) : ℚ) ≤ (pyRound (x/5) : ℚ) := by exact_mod_cast h10
      push_cast at h
      linarith
    rcases lt_or_eq_of_le h50y with hgt | heq
    · rw [hx, snapQ, if_pos hgt]
      have hdiv : ((pyRound (x/5) : ℚ) * 5) / 5 = (pyRound (x/5) : ℚ) := by
        rw [mul_div_assoc, div_self (by norm_num : (5:ℚ) ≠ 0), mul_one]
      rw [hdiv, pyRound_intCast]
    · rw [hx, ← heq]
      norm_num [snapQ, pyRound]
  · by_cases h10 : (10 : ℚ) < x
    · have hx : snapQ x = (pyRound (x/(5/2)) : ℚ) * (5/2) := by
        rw [snapQ, if_neg h50, if_pos h10]
      have hlo : (4 : ℤ) ≤ pyRound (x/(5/2)) := by
        refine le_pyRound ?_
        rw [le_div_iff₀ (by norm_num : (0:ℚ) < 5/2)]
        push_cast
        linarith
      have hhi : pyRound (x/(5/2)) ≤ 20 := by
        refine pyRound_le ?_
        rw [div_le_iff₀ (by norm_num : (0:ℚ) < 5/2)]
        push_cast
        linarith [not_lt.1 h50]
      have hylo : (10 : ℚ) ≤ (pyRound (x/(5/2)) : ℚ) * (5/2) := by
        have h : ((4:ℤ) : ℚ) ≤ (pyRound (x/(5/2)) : ℚ) := by exact_mod_cast hlo
        push_cast at h
        linarith
      have hyhi : (pyRound (x/(5/2)) : ℚ) * (5/2) ≤ 50 := by
        have h : (pyRound (x/(5/2)) : ℚ) ≤ ((20:ℤ) : ℚ) := by exact_mod_cast hhi
        push_cast at h
        linarith
      have hy50 : ¬ (50 : ℚ) < (pyRound (x/(5/2)) : ℚ) * (5/2) := not_lt.2 hyhi
      rcases lt_or_eq_of_le hylo with hgt | heq
      · rw [hx, snapQ, if_neg hy50, if_pos hgt]
        have hdiv : ((pyRound (x/(5/2)) : ℚ) * (5/2)) / (5/2) = (pyRound (x/(5/2)) : ℚ) := by
          rw [mul_div_assoc, div_self (by norm_num : (5/2:ℚ) ≠ 0), mul_one]
        rw [hdiv, pyRound_intCast]
      · rw [hx, ← heq]
        norm_num [snapQ, pyRound]
    · have hx : snapQ x = x := by rw [snapQ, if_neg h50, if_neg h10]
      rw [hx]
      exact hx

/-- C3 counterexample: two invocations of the trade-suggestion generator
with identical ticker and price but different internal clock readings
return different suggestions, so the output is not a function of the
declared inputs alone and the function does read the system clock. -/
theorem options_suggestion_reads_clock :
    (getOptionsSuggestion "AAPL" 100 (daysFromCivil 2025 6 1)).minExpiry ≠
      (getOptionsSuggestion "AAPL" 100 (daysFromCivil 2025 6 2)).minExpiry := by
  decide

/-- C3 (amended): the generator takes only ticker and current price and
reads the system clock internally; it is deterministic once the clock
reading is fixed, and the strike, chain URL and exit rules depend only on
the ticker and price, while the expiry dates vary with the clock. -/
theorem options_suggestion_clock_determinism (t : String) (p : ℚ) (n1 n2 : Nat) :
    (getOptionsSuggestion t p n1).strike = (getOptionsSuggestion t p n2).strike ∧
    (getOptionsSuggestion t p n1).chainUrl = (getOptionsSuggestion t p n2).chainUrl ∧
    (getOptionsSuggestion t p n1).exitHalfAt = (getOptionsSuggestion t p n2).exitHalfAt ∧
    (getOptionsSuggestion t p n1).exitRestAt = (getOptionsSuggestion t p n2).exitRestAt ∧
    (n1 = n2 → getOptionsSuggestion t p n1 = getOptionsSuggestion t p n2) :=
  ⟨rfl, rfl, rfl, rfl, fun h => by rw [h]⟩

/-- Witness for C3 at a concrete ticker, price and clock reading. -/
theorem options_suggestion_clock_determinism_witness :
    getOptionsSuggestion "NVDA" 100 (daysFromCivil 2025 3 1) =
      getOptionsSuggestion "NVDA" 100 (daysFromCivil 2025 3 1) :=
  (options_suggestion_clock_determinism "NVDA" 100
    (daysFromCivil 2025 3 1) (daysFromCivil 2025 3 1)).2.2.2.2 rfl

/-- C4: evaluation of the expiry-label code at the failing input. For the
reference date January 20 2025, the 360-day target falls on January 15
2026, and January 2026 still lies at or beyond that target (its last day
is not before the target), yet the code labels the suggestion January
2027, skipping the nearest qualifying January. -/
theorem expiry_label_skips_january :
    civilFromDays (daysFromCivil 2025 1 20 + MIN_DTE) = (2026, 1, 15) ∧
    daysFromCivil 2025 1 20 + MIN_DTE ≤ daysFromCivil 2026 1 31 ∧
    (getOptionsSuggestion "AAPL" 100 (daysFromCivil 2025 1 20)).expirySuggestion
      = "January 2027" := by
  refine ⟨by decide, by decide, by decide⟩

/-! Helper lemmas for the alert ledger. -/

theorem fdiv_day_lt_iff (x : ℤ) : (x.fdiv 86400 < 7 ↔ x < 7 * 86400) := by
  rw [Int.fdiv_eq_ediv _ (by norm_num)]
  rw [Int.ediv_lt_iff_lt_mul (by norm_num : (0:ℤ) < 86400)]

/-- C7: should_alert returns true exactly when no record exists for the
ticker or at least 7 full days have elapsed between now and the record
date; a record dated now minus 6 days gives false and a record dated now
minus 7 days or earlier gives true. -/
theorem should_alert_cooldown (h : History) (t : String) (now : ℤ) :
    (should_alert t h now = true ↔
      (h t = none ∨ ∃ r : AlertRecord, h t = some r ∧ 7 * 86400 ≤ now - r.date)) ∧
    (∀ r : AlertRecord, h t = some r → r.date = now - 6 * 86400 →
      should_alert t h now = false) ∧
    (∀ r : AlertRecord, h t = some r → r.date ≤ now - 7 * 86400 →
      should_alert t h now = true) := by
  rcases hrec : h t with _ | r
  · have hsa : should_alert t h now = true := by rw [should_alert, hrec]
    refine ⟨?_, ?_, ?_⟩
    · rw [hsa]
      simp
    · intro r hr
      exact absurd hr (by simp)
    · intro r hr
      exact absurd hr (by simp)
  · have hsa : should_alert t h now
        = (if (now - r.date).fdiv 86400 < 7 then false else true) := by
      rw [should_alert, hrec]
    refine ⟨?_, ?_, ?_⟩
    · rw [hsa]
      by_cases hlt : (now - r.date).fdiv 86400 < 7
      · rw [if_pos hlt]
        simp only [Bool.false_eq_true, false_iff]
        rw [fdiv_day_lt_iff] at hlt
        rintro (hnone | ⟨r2, hr2, hle⟩)
        · exact absurd hnone (by simp)
        · injection hr2 with hr2
          subst hr2
          linarith
      · rw [if_neg hlt]
        simp only [true_iff]
        rw [fdiv_day_lt_iff, not_lt] at hlt
        exact Or.inr ⟨r, rfl, by linarith⟩
    · intro r2 hr2 hdate
      injection hr2 with hr2
      subst hr2
      have hx : now - r.date = 6 * 86400 := by
        rw [hdate]
        ring
      rw [hsa, if_pos]
      rw [fdiv_day_lt_iff, hx]
      norm_num
    · intro r2 hr2 hdate
      injection hr2 with hr2
      subst hr2
      rw [hsa, if_neg]
      rw [fdiv_day_lt_iff, not_lt]
      linarith

/-- Witness for C7: a record dated 6 days before now suppresses the
alert, a record dated exactly 7 days before now allows it. -/
theorem should_alert_cooldown_witness :
    should_alert "AAPL"
      (fun u => if u = "AAPL" then some { date := 1000000 - 6 * 86400, rsi := none, price := 10 }
        else none) 1000000 = false ∧
    should_alert "MSFT"
      (fun u => if u = "MSFT" then some { date := 1000000 - 7 * 86400, rsi := none, price := 10 }
        else none) 1000000 = true :=
  ⟨(should_alert_cooldown _ "AAPL" 1000000).2.1
      { date := 1000000 - 6 * 86400, rsi := none, price := 10 } (by simp) rfl,
   (should_alert_cooldown _ "MSFT" 1000000).2.2
      { date := 1000000 - 7 * 86400, rsi := none, price := 10 } (by simp) (le_refl _)⟩

theorem setRec_apply_ne (h : History) (u : String) (r : Option AlertRecord)
    {t : String} (hne : t ≠ u) : setRec h u r t = h t := by
  rw [setRec, if_neg hne]

theorem recordIfOversold_apply_ne (now : ℤ) (h : History) (u : String) (d : StockData)
    {t : String} (hne : t ≠ u) : recordIfOversold now h u d t = h t := by
  rw [recordIfOversold]
  split
  · exact setRec_apply_ne h u _ hne
  · rfl

theorem clearRecovered_apply_ne (h : History) (u : String) (d : StockData)
    {t : String} (hne : t ≠ u) : clearRecovered h u d t = h t := by
  rw [clearRecovered]
  split
  · exact setRec_apply_ne h u _ hne
  · rfl

theorem scanStep_apply_ne (now : ℤ) (h : History) (u : String) (dat : Option StockData)
    {t : String} (hne : t ≠ u) : scanStep now h u dat t = h t := by
  cases dat with
  | none => rfl
  | some d =>
    rw [scanStep]
    rw [clearRecovered_apply_ne _ u d hne, recordIfOversold_apply_ne now h u d hne]

theorem rsiBelow_false_of_recovered {r : ℚ} (h40 : 40 < r) :
    rsiBelow (some r) RSI_THRESHOLD = false := by
  simp only [rsiBelow, RSI_THRESHOLD, decide_eq_false_iff_not, not_lt]
  linarith

theorem rsiAbove_true_of_recovered {r : ℚ} (h40 : 40 < r) :
    rsiAbove (some r) 40 = true := by
  simpa only [rsiAbove, decide_eq_true_eq] using h40

theorem recordIfOversold_recovered (now : ℤ) (h : History) (u : String) {d : StockData}
    {r : ℚ} (hr : d.weekly_rsi = some r) (h40 : 40 < r) :
    recordIfOversold now h u d = h := by
  rw [recordIfOversold, hr, rsiBelow_false_of_recovered h40]
  simp

theorem scanStep_recovered_apply (now : ℤ) (h : History) (u : String) {d : StockData}
    {r : ℚ} (hr : d.weekly_rsi = some r) (h40 : 40 < r) :
    scanStep now h u (some d) u = none := by
  rw [scanStep, recordIfOversold_recovered now h u hr h40]
  rw [clearRecovered, hr, rsiAbove_true_of_recovered h40]
  cases hu : h u with
  | none => simp [hu]
  | some rec0 => simp [hu, setRec]

theorem scanStep_recovered_noop (now : ℤ) (h : History) (u : String) {d : StockData}
    {r : ℚ} (hr : d.weekly_rsi = some r) (h40 : 40 < r) (hnone : h u = none) :
    scanStep now h u (some d) = h := by
  rw [scanStep, recordIfOversold_recovered now h u hr h40]
  rw [clearRecovered, hnone]
  simp

theorem run_history_preserves_none (data : String → Option StockData) (now : ℤ)
    (t : String) {d : StockData} {r : ℚ}
    (hd : data t = some d) (hr : d.weekly_rsi = some r) (h40 : 40 < r) :
    ∀ (l : List String) (h : History), h t = none → run_scanner_history l data now h t = none := by
  intro l
  induction l with
  | nil => exact fun h hn => hn
  | cons u rest ih =>
    intro h hn
    show run_scanner_history rest data now (scanStep now h u (data u)) t = none
    apply ih
    by_cases hut : t = u
    · subst hut
      rw [hd, scanStep_recovered_noop now h t hr h40 hn]
      exact hn
    · rw [scanStep_apply_ne now h u (data u) hut]
      exact hn

theorem run_history_clears (data : String → Option StockData) (now : ℤ)
    (t : String) {d : StockData} {r : ℚ}
    (hd : data t = some d) (hr : d.weekly_rsi = some r) (h40 : 40 < r) :
    ∀ (l : List String) (h : History), t ∈ l → run_scanner_history l data now h t = none := by
  intro l
  induction l with
  | nil =>
    intro h hmem
    exact absurd hmem (List.not_mem_nil t)
  | cons u rest ih =>
    intro h hmem
    rcases List.mem_cons.1 hmem with hEq | hMem
    · subst hEq
      show run_scanner_history rest data now (scanStep now h t (data t)) t = none
      apply run_history_preserves_none data now t hd hr h40 rest
      rw [hd]
      exact scanStep_recovered_apply now h t hr h40
    · exact ih (scanStep now h u (data u)) hMem

/-- C8: after a scan, a scanned ticker whose weekly RSI exceeds 40 has no
alert record left in the ledger, and the per-ticker step with no existing
record is an exact no-op on the ledger rather than an error. -/
theorem scan_clears_recovered_ticker (wl : List String) (data : String → Option StockData)
    (now : ℤ) (h0 : History) (t : String) (d : StockData) (r : ℚ)
    (hd : data t = some d) (hr : d.weekly_rsi = some r) (h40 : 40 < r) (ht : t ∈ wl) :
    run_scanner_history wl data now h0 t = none ∧
    (∀ h : History, h t = none → scanStep now h t (data t) = h) := by
  constructor
  · exact run_history_clears data now t hd hr h40 wl h0 ht
  · intro h hn
    rw [hd]
    exact scanStep_recovered_noop now h t hr h40 hn

/-- Witness for C8: a watchlist with one ticker XYZ holding an alert
record, scanned at RSI 41, ends with no record for XYZ. -/
theorem scan_clears_recovered_ticker_witness :
    run_scanner_history ["XYZ"]
      (fun u => if u = "XYZ" then some { price := 60, weekly_rsi := some 41 } else none)
      1000
      (fun u => if u = "XYZ" then some { date := 0, rsi := some 25, price := 80 } else none)
      "XYZ" = none :=
  (scan_clears_recovered_ticker ["XYZ"] _ 1000 _ "XYZ"
    { price := 60, weekly_rsi := some 41 } 41
    (by simp) rfl (by norm_num) (by simp)).1

/-- C10: a ticker whose data retrieval fails during a scan has its ledger
entry left exactly unchanged by that scan, whatever the rest of the
watchlist does. -/
theorem scan_preserves_record_without_data (wl : List String)
    (data : String → Option StockData) (now : ℤ) (h0 : History) (t : String)
    (hd : data t = none) :
    run_scanner_history wl data now h0 t = h0 t := by
  induction wl generalizing h0 with
  | nil => rfl
  | cons u rest ih =>
    show run_scanner_history rest data now (scanStep now h0 u (data u)) t = h0 t
    rw [ih (scanStep now h0 u (data u))]
    by_cases hut : t = u
    · subst hut
      rw [hd]
      rfl
    · exact scanStep_apply_ne now h0 u (data u) hut

/-- Witness for C10: a ticker with a stale record and failed retrieval
keeps its record through a scan of a two-ticker watchlist. -/
theorem scan_preserves_record_without_data_witness :
    run_scanner_history ["ABC", "XYZ"]
      (fun u => if u = "XYZ" then some { price := 60, weekly_rsi := some 41 } else none)
      1000
      (fun u => if u = "ABC" then some { date := 3, rsi := some 20, price := 50 } else none)
      "ABC" =
      some { date := 3, rsi := some 20, price := 50 } :=
  scan_preserves_record_without_data ["ABC", "XYZ"] _ 1000 _ "ABC" (by simp)

/-! Helper lemmas for the RSI engine. -/

theorem getElem?_zipWith_some {α β γ : Type} (f : α → β → γ) :
    ∀ (as : List α) (bs : List β) (i : Nat) (a : α) (b : β),
      as[i]? = some a → bs[i]? = some b → (List.zipWith f as bs)[i]? = some (f a b)
  | [], _, i, _, _, ha, _ => by simp at ha
  | _ :: _, [], i, _, _, _, hb => by simp at hb
  | x :: as, y :: bs, 0, a, b, ha, hb => by
      simp only [List.getElem?_cons_zero] at ha hb
      injection ha with ha
      injection hb with hb
      subst ha
      subst hb
      simp [List.zipWith_cons_cons]
  | x :: as, y :: bs, i + 1, a, b, ha, hb => by
      simp only [List.getElem?_cons_succ] at ha hb
      simpa [List.zipWith_cons_cons] using getElem?_zipWith_some f as bs i a b ha hb

theorem maskCount_length : ∀ (k : Nat) (xs : List ℚ), (maskCount k xs).length = xs.length
  | 0, xs => by simp [maskCount]
  | _ + 1, [] => rfl
  | k + 1, x :: xs => by simp [maskCount, maskCount_length k xs]

theorem maskCount_getElem? : ∀ (k : Nat) (xs : List ℚ) (i : Nat),
    (maskCount k xs)[i]? = (xs[i]?).map (fun v => if i < k then none else some v)
  | 0, xs, i => by simp [maskCount, List.getElem?_map]
  | _ + 1, [], i => by simp [maskCount]
  | _ + 1, x :: xs, 0 => by simp [maskCount]
  | k + 1, x :: xs, i + 1 => by
      simp only [maskCount, List.getElem?_cons_succ, maskCount_getElem? k xs i,
        add_lt_add_iff_right]

theorem ewmAux_length (w : ℚ) : ∀ (n d : ℚ) (xs : List ℚ),
    (ewmAux w n d xs).length = xs.length
  | _, _, [] => rfl
  | n, d, x :: xs => by simp [ewmAux, ewmAux_length w (w * n + x) (w * d + 1) xs]

theorem gains_length (cs : List ℚ) : (gains cs).length = cs.length := by
  cases cs with
  | nil => rfl
  | cons c rest =>
    simp only [gains, List.length_cons, List.length_zipWith]
    omega

theorem losses_length (cs : List ℚ) : (losses cs).length = cs.length := by
  cases cs with
  | nil => rfl
  | cons c rest =>
    simp only [losses, List.length_cons, List.length_zipWith]
    omega

theorem ewmMean_length (alpha : ℚ) (minp : Nat) (xs : List ℚ) :
    (ewmMean alpha minp xs).length = xs.length := by
  rw [ewmMean, maskCount_length, ewmAux_length]

/-- The recursive accumulator form of the adjusted ewm equals its closed
weighted-sum form, with the accumulators carried explicitly. -/
theorem ewmAux_getElem? (w : ℚ) (xs : List ℚ) :
    ∀ (n d : ℚ) (t : Nat), t < xs.length →
      (ewmAux w n d xs)[t]? =
        some ((w ^ (t + 1) * n + ∑ i ∈ Finset.range (t + 1), w ^ (t - i) * xs.getD i 0) /
              (w ^ (t + 1) * d + ∑ i ∈ Finset.range (t + 1), w ^ i)) := by
  induction xs with
  | nil =>
    intro n d t ht
    simp at ht
  | cons x rest ih =>
    intro n d t ht
    cases t with
    | zero =>
      have h0 : (ewmAux w n d (x :: rest))[0]? = some ((w * n + x) / (w * d + 1)) := by
        simp [ewmAux]
      rw [h0]
      congr 1
      rw [Finset.sum_range_one, Finset.sum_range_one, Nat.sub_zero, List.getD_cons_zero]
      ring
    | succ t =>
      have ht' : t < rest.length := by
        simpa using Nat.lt_of_succ_lt_succ ht
      have hstep : (ewmAux w n d (x :: rest))[t + 1]?
          = (ewmAux w (w * n + x) (w * d + 1) rest)[t]? := by
        simp only [ewmAux, List.getElem?_cons_succ]
      rw [hstep, ih (w * n + x) (w * d + 1) t ht']
      have hs1 : (∑ i ∈ Finset.range (t + 1 + 1), w ^ (t + 1 - i) * (x :: rest).getD i 0)
          = (∑ i ∈ Finset.range (t + 1), w ^ (t - i) * rest.getD i 0) + w ^ (t + 1) * x := by
        rw [Finset.sum_range_succ']
        congr 1
        refine Finset.sum_congr rfl ?_
        intro i hi
        have he : t + 1 - (i + 1) = t - i := by omega
        rw [List.getD_cons_succ, he]
      have hs2 : (∑ i ∈ Finset.range (t + 1 + 1), w ^ i)
          = (∑ i ∈ Finset.range (t + 1), w ^ i) + w ^ (t + 1) := Finset.sum_range_succ _ _
      congr 1
      rw [hs1, hs2]
      ring

/-- The adjusted ewm started from zero accumulators computes exactly the
normalized weighted average ewmSpecAt. -/
theorem ewmAux_closed_form (w : ℚ) (xs : List ℚ) (t : Nat) (ht : t < xs.length) :
    (ewmAux w 0 0 xs)[t]? = some (ewmSpecAt w xs t) := by
  rw [ewmAux_getElem? w xs 0 0 t ht, ewmSpecAt]
  have hnum : (∑ i ∈ Finset.range (t + 1), w ^ (t - i) * xs.getD i 0)
      = ∑ i ∈ Finset.range (t + 1), w ^ i * xs.getD (t - i) 0 := by
    rw [← Finset.sum_range_reflect (fun i => w ^ i * xs.getD (t - i) 0) (t + 1)]
    refine Finset.sum_congr rfl ?_
    intro i hi
    have h1 : t + 1 - 1 - i = t - i := by omega
    have h2 : t - (t - i) = i := by
      have := Finset.mem_range.1 hi
      omega
    rw [h1, h2]
  congr 1
  rw [hnum]
  ring

theorem ewmMean_getElem? (alpha : ℚ) (minp : Nat) (xs : List ℚ) (t : Nat)
    (ht : t < xs.length) :
    (ewmMean alpha minp xs)[t]? =
      some (if t < minp - 1 then none else some (ewmSpecAt (1 - alpha) xs t)) := by
  rw [ewmMean, maskCount_getElem?, ewmAux_closed_form (1 - alpha) xs t ht]
  rfl

/-- The concrete 15-week close series used to separate the two RSI
smoothing semantics. -/
def csC1 : List ℚ := [10, 11, 9, 12, 8, 13, 7, 14, 6, 15, 5, 16, 4, 17, 3]

/-- C1 counterexample: on a 15-week close series the RSI value the code
computes at the last index is defined but differs from the reference
SMA-seeded Wilder RSI of the spec, and at index 13 the code is already
defined while the reference Wilder smoothing is still undefined. -/
theorem rsi_engine_not_wilder_seeded :
    (calculate_weekly_rsi csC1 14)[14]? ≠ (wilderRsiSpec csC1 14)[14]? ∧
    (calculate_weekly_rsi csC1 14)[14]? ≠ some none ∧
    (wilderRsiSpec csC1 14)[14]? ≠ some none ∧
    (calculate_weekly_rsi csC1 14)[13]? ≠ some none ∧
    (wilderRsiSpec csC1 14)[13]? = some none := by
  norm_num [csC1, calculate_weekly_rsi, ewmMean, maskCount, ewmAux, gains, losses,
    rsiFromAvgs, wilderRsiSpec, wilderAvg, wilderRec, rsiSpecFromAvgs, List.replicate,
    Option.some_ne_none]

/-- C1 (amended): for every close series of length at least 15 the engine
produces an RSI series of equal length whose first 13 entries are
undefined, and whose entries from index 13 on are the RSI formula applied
to the pandas adjusted exponentially weighted averages of the gain and
loss series: normalized weighted averages with weights (13/14) ^ age over
all samples so far, the missing initial delta entering as a zero sample;
this is what the code computes instead of the SMA-seeded Wilder
recursion. -/
theorem rsi_engine_matches_adjusted_ewm (closes : List ℚ) (h15 : 15 ≤ closes.length) :
    (calculate_weekly_rsi closes 14).length = closes.length ∧
    (∀ i, i < 13 → (calculate_weekly_rsi closes 14)[i]? = some none) ∧
    (∀ i, 13 ≤ i → i < closes.length →
      (calculate_weekly_rsi closes 14)[i]? =
        some (rsiFromAvgs (some (ewmSpecAt (13/14) (gains closes) i))
          (some (ewmSpecAt (13/14) (losses closes) i)))) := by
  have hg := gains_length closes
  have hl := losses_length closes
  have hw : (1 - 1 / ((14 : Nat) : ℚ)) = 13/14 := by norm_num
  refine ⟨?_, ?_, ?_⟩
  · rw [calculate_weekly_rsi, List.length_zipWith, ewmMean_length, ewmMean_length, hg, hl,
      min_self]
  · intro i hi
    have hig : i < (gains closes).length := by omega
    have hil : i < (losses closes).length := by omega
    have h1 := ewmMean_getElem? (1 / ((14 : Nat) : ℚ)) 14 (gains closes) i hig
    have h2 := ewmMean_getElem? (1 / ((14 : Nat) : ℚ)) 14 (losses closes) i hil
    rw [if_pos (by omega : i < 14 - 1)] at h1 h2
    rw [calculate_weekly_rsi, getElem?_zipWith_some rsiFromAvgs _ _ i _ _ h1 h2]
    rfl
  · intro i h13 hlen
    have hig : i < (gains closes).length := by omega
    have hil : i < (losses closes).length := by omega
    have h1 := ewmMean_getElem? (1 / ((14 : Nat) : ℚ)) 14 (gains closes) i hig
    have h2 := ewmMean_getElem? (1 / ((14 : Nat) : ℚ)) 14 (losses closes) i hil
    rw [if_neg (by omega : ¬ i < 14 - 1), hw] at h1 h2
    rw [calculate_weekly_rsi, getElem?_zipWith_some rsiFromAvgs _ _ i _ _ h1 h2]

/-- Witness for C1 on the concrete close series csC1. -/
theorem rsi_engine_matches_adjusted_ewm_witness :
    (calculate_weekly_rsi csC1 14).length = csC1.length ∧
    (calculate_weekly_rsi csC1 14)[5]? = some none ∧
    (calculate_weekly_rsi csC1 14)[14]? =
      some (rsiFromAvgs (some (ewmSpecAt (13/14) (gains csC1) 14))
        (some (ewmSpecAt (13/14) (losses csC1) 14))) :=
  ⟨(rsi_engine_matches_adjusted_ewm csC1 (by simp [csC1])).1,
   (rsi_engine_matches_adjusted_ewm csC1 (by simp [csC1])).2.1 5 (by norm_num),
   (rsi_engine_matches_adjusted_ewm csC1 (by simp [csC1])).2.2 14 (by norm_num)
     (by simp [csC1])⟩

/-- C2 counterexample: on a flat 15-week close series every loss sample is
zero, the smoothed average loss at the last index is a defined 0, and the
RSI the code computes there is NaN (undefined), not 100, because the
average gain is also 0 and 0 / 0 is NaN. -/
theorem rsi_flat_window_undefined :
    (ewmMean (1 / ((14 : Nat) : ℚ)) 14 (losses (List.replicate 15 (100:ℚ))))[14]?
      = some (some 0) ∧
    (ewmMean (1 / ((14 : Nat) : ℚ)) 14 (gains (List.replicate 15 (100:ℚ))))[14]?
      = some (some 0) ∧
    (calculate_weekly_rsi (List.replicate 15 (100:ℚ)) 14)[14]? = some none ∧
    (calculate_weekly_rsi (List.replicate 15 (100:ℚ)) 14)[14]? ≠ some (some 100) := by
  norm_num [calculate_weekly_rsi, ewmMean, maskCount, ewmAux, gains, losses, rsiFromAvgs,
    List.replicate, Option.some_ne_none]
  exact fun h => Option.noConfusion h

/-- C2 (amended): dividing by a zero smoothed average loss never raises:
when the smoothed average gain at that index is nonzero the RSI is
deterministically 100, and when the average gain is also zero (a flat
window) the RSI at that index is undefined rather than 100. -/
theorem rsi_zero_loss_division (closes : List ℚ) (period : Nat) (i : Nat)
    (hl : (ewmMean (1 / (period : ℚ)) period (losses closes))[i]? = some (some 0)) :
    ((match (ewmMean (1 / (period : ℚ)) period (gains closes))[i]? with
      | some (some g) => g ≠ 0
      | _ => False) →
      (calculate_weekly_rsi closes period)[i]? = some (some 100)) ∧
    ((ewmMean (1 / (period : ℚ)) period (gains closes))[i]? = some (some 0) →
      (calculate_weekly_rsi closes period)[i]? = some none) := by
  constructor
  · intro hg
    rcases hG : (ewmMean (1 / (period : ℚ)) period (gains closes))[i]? with _ | og
    · rw [hG] at hg
      exact hg.elim
    · rcases og with _ | g
      · rw [hG] at hg
        exact hg.elim
      · rw [hG] at hg
        have hg' : g ≠ 0 := hg
        rw [calculate_weekly_rsi, getElem?_zipWith_some rsiFromAvgs _ _ i _ _ hG hl]
        simp [rsiFromAvgs, hg']
  · intro hg0
    rw [calculate_weekly_rsi, getElem?_zipWith_some rsiFromAvgs _ _ i _ _ hg0 hl]
    simp [rsiFromAvgs]

/-- The concrete strictly increasing close series used as the C2 witness:
its loss samples are all zero while its gain average is positive. -/
def csUp : List ℚ := [1, 2, 3, 4, 5, 6, 7, 8, 9, 10, 11, 12, 13, 14, 15]

/-- Witness for C2: a strictly increasing close series has average loss 0
and nonzero average gain at the last index, and its RSI there is 100. -/
theorem rsi_zero_loss_division_witness :
    (calculate_weekly_rsi csUp 14)[14]? = some (some 100) :=
  (rsi_zero_loss_division csUp 14 14
      (by norm_num [csUp, ewmMean, maskCount, ewmAux, losses])).1
    (by norm_num [csUp, ewmMean, maskCount, ewmAux, gains])

end LeapsScanner
